import Mathlib

/-!
Verification of the algorithmic core of the `dynamic-tokens` module:
the threshold resolver (`resolveImage`, in its ascending and descending
revisions) and the `updateActor` change reactor of
`src/scripts/dynamic-tokens.js` and the companion revision.

JS numbers are modelled as rationals (no float-specific behavior is at
issue in any property considered here), JS `null`/`undefined` as
`Option`, and the stable `Array.prototype.sort` with a consistent
comparator as the stable `List.insertionSort` (the stably sorted
permutation of a list under a total preorder is unique, so any stable
sort is extensionally the ECMAScript sort).
-/

namespace DynamicTokens

/-- A threshold entry as stored in the `thresholds` flag:
`{ threshold: number, img: string }`. -/
structure Threshold where
  threshold : ℚ
  img : String
deriving DecidableEq

/-- The total preorder induced by the ascending comparator
`(a, b) => a.threshold - b.threshold`. -/
def thLE (a b : Threshold) : Prop := a.threshold ≤ b.threshold

/-- The total preorder induced by the descending comparator
`(a, b) => b.threshold - a.threshold`. -/
def thGE (a b : Threshold) : Prop := b.threshold ≤ a.threshold

instance : DecidableRel thLE :=
  fun a b => inferInstanceAs (Decidable (a.threshold ≤ b.threshold))

instance : DecidableRel thGE :=
  fun a b => inferInstanceAs (Decidable (b.threshold ≤ a.threshold))

instance : IsTotal Threshold thLE := ⟨fun a b => le_total a.threshold b.threshold⟩

instance : IsTrans Threshold thLE := ⟨fun _ _ _ h₁ h₂ => le_trans h₁ h₂⟩

instance : IsTotal Threshold thGE := ⟨fun a b => le_total b.threshold a.threshold⟩

instance : IsTrans Threshold thGE := ⟨fun _ _ _ h₁ h₂ => le_trans h₂ h₁⟩

/-- The scan loop shared by both revisions of `resolveImage`: return the
`img` of the first entry `e` of the already-sorted list with
`hpPercent <= e.threshold`, else fall through (`null`). -/
def scanFirst (hpPercent : ℚ) : List Threshold → Option String
  | [] => none
  | e :: rest => if hpPercent ≤ e.threshold then some e.img else scanFirst hpPercent rest

/-- Function `resolveImage` of `src/scripts/dynamic-tokens.js` (ascending
variant): `!thresholds?.length` guard, sort ascending by `threshold`,
return the `img` of the first entry with `hpPercent <= entry.threshold`,
else `null`. An absent (`null`) list reaches this model as `[]`. -/
def resolveImage (hpPercent : ℚ) (thresholds : List Threshold) : Option String :=
  if thresholds.length = 0 then none
  else scanFirst hpPercent (List.insertionSort thLE thresholds)

/-- Function `resolveImage` of the companion revision (descending
variant): sort descending, same scan, and on fall-through return
`sorted[0]?.img ?? null`. -/
def resolveImageDesc (hpPercent : ℚ) (thresholds : List Threshold) : Option String :=
  if thresholds.length = 0 then none
  else
    match scanFirst hpPercent (List.insertionSort thGE thresholds) with
    | some img => some img
    | none => (List.insertionSort thGE thresholds).head?.map Threshold.img

/-- The ascending variant as the specification words it: sort thresholds
by ascending `threshold`; scan in that order; return the `img` of the
first entry whose `threshold >= percent`; if no entry satisfies this or
the list is empty, return `null`. -/
def resolveImageSpecAsc (percent : ℚ) (ts : List Threshold) : Option String :=
  ((List.insertionSort thLE ts).find? fun e => decide (e.threshold ≥ percent)).map Threshold.img

/-- The descending variant as the specification words it: sort
descending; return the first entry whose `threshold >= percent`; if none
is found, fall back to the image of the single highest threshold rather
than returning `null`. -/
def resolveImageSpecDesc (percent : ℚ) (ts : List Threshold) : Option String :=
  match (List.insertionSort thGE ts).find? fun e => decide (e.threshold ≥ percent) with
  | some e => some e.img
  | none => (List.insertionSort thGE ts).head?.map Threshold.img

/-- The first entry of a list attaining the maximal `threshold` value
(earlier entries win ties). -/
def firstMax : List Threshold → Option Threshold
  | [] => none
  | x :: xs =>
    match firstMax xs with
    | none => some x
    | some m => some (if x.threshold < m.threshold then m else x)

example : resolveImage 50 [⟨25, "a"⟩, ⟨75, "b"⟩, ⟨100, "c"⟩] = some "b" := by decide

example : resolveImage 100 [⟨25, "a"⟩, ⟨75, "b"⟩, ⟨100, "c"⟩] = some "c" := by decide

example : resolveImage 10 [⟨25, "a"⟩, ⟨75, "b"⟩, ⟨100, "c"⟩] = some "a" := by decide

example : resolveImageDesc 10 [⟨25, "a"⟩, ⟨75, "b"⟩, ⟨100, "c"⟩] = some "c" := by decide

example : firstMax [⟨25, "a"⟩, ⟨75, "b"⟩, ⟨75, "c"⟩] = some ⟨75, "b"⟩ := by decide

/-- The `{value, max, isReversed}` container found at the tracked
attribute path of an actor's data. JS `null`/`undefined` for `max` is
`none`; `isReversed` truthiness is a `Bool` (the descending-variant hook
never reads it). -/
structure AttrData where
  value : ℚ
  max : Option ℚ
  isReversed : Bool
deriving DecidableEq

/-- An actor, abstracted to the object-graph lookup the hooks perform:
`resolveAttr p` is `resolvePath(actor, p)` for a full dot-path `p`
(such as `"system.resources.hitPoints"`), `none` when the path resolves
to `undefined`. -/
structure Actor where
  resolveAttr : String → Option AttrData

/-- A token document, restricted to the fields the hooks read:
the `attribute` flag, the `thresholds` flag (both `none` when the flag is
unset, i.e. `getFlag(...) ?? null` is `null`), and `texture?.src`. -/
structure TokenDoc where
  attributeFlag : Option String
  thresholds : Option (List Threshold)
  textureSrc : Option String

/-- The diff payload of an `updateActor` event, abstracted to the lookup
`foundry.utils.getProperty(changes, p)` for a full dot-path `p`; `none`
models `undefined`. -/
def Changes : Type := String → Option ℚ

/-- The default attribute path of `src/scripts/dynamic-tokens.js`. -/
def DEFAULT_ATTRIBUTE : String := "resources.hitPoints"

/-- The percentage computation of the ascending-variant hook
(lines 209-211 of `src/scripts/dynamic-tokens.js`): under `isReversed`
the value counts damage taken, so `(1 - value/max) * 100`, otherwise
`value/max * 100`. `m` is the non-null, non-zero `max` already guarded. -/
def hpPercentOf (attrData : AttrData) (m : ℚ) : ℚ :=
  if attrData.isReversed then (1 - attrData.value / m) * 100
  else attrData.value / m * 100

/-- The per-token body of the `updateActor` hook of
`src/scripts/dynamic-tokens.js` (ascending variant), as the optional
write it issues for one token: guard on the `attribute` flag (falsy:
unset or empty), the `thresholds` flag (falsy length), the presence of
`system.<attrPath>.value` in the diff, the attribute container and its
`max` (null or zero), then resolve the image (falsy `newImg`: null or
empty) and write `texture.src` only on mismatch. -/
def processToken (actor : Actor) (changes : Changes) (tokenDoc : TokenDoc) : Option String :=
  match tokenDoc.attributeFlag with
  | none => none
  | some attrPath =>
    if attrPath = "" then none
    else
      match tokenDoc.thresholds with
      | none => none
      | some thresholds =>
        if thresholds.length = 0 then none
        else
          match changes ("system." ++ attrPath ++ ".value") with
          | none => none
          | some _ =>
            match actor.resolveAttr ("system." ++ attrPath) with
            | none => none
            | some attrData =>
              match attrData.max with
              | none => none
              | some m =>
                if m = 0 then none
                else
                  match resolveImage (hpPercentOf attrData m) thresholds with
                  | none => none
                  | some newImg =>
                    if newImg = "" then none
                    else if tokenDoc.textureSrc ≠ some newImg then some newImg else none

/-- The `updateActor` hook of `src/scripts/dynamic-tokens.js` (ascending
variant) as the list of writes it issues, each tagged with the index of
the token in `actor.getActiveTokens(false, true)`: nothing unless the
local client initiated the update, then one optional write per token. -/
def updateActorHookAsc (localUserId : String) (actor : Actor) (changes : Changes)
    (tokens : List TokenDoc) (userId : String) : List (Nat × String) :=
  if localUserId ≠ userId then []
  else tokens.enum.filterMap fun it => (processToken actor changes it.2).map fun img => (it.1, img)

/-- The per-token body of the `updateActor` hook of the companion
revision (descending variant): guard on the `thresholds` flag, resolve
via the descending resolver at the already-computed percentage (falsy
`newImg` skips), and write `texture.src` only on mismatch. -/
def processTokenDesc (hpPercent : ℚ) (tokenDoc : TokenDoc) : Option String :=
  match tokenDoc.thresholds with
  | none => none
  | some thresholds =>
    if thresholds.length = 0 then none
    else
      match resolveImageDesc hpPercent thresholds with
      | none => none
      | some newImg =>
        if newImg = "" then none
        else if tokenDoc.textureSrc ≠ some newImg then some newImg else none

/-- The `updateActor` hook of the companion revision (descending
variant): nothing unless the local client initiated the update; the
attribute path is the world-scope `hpPath` setting (a full path such as
`"system.attributes.hp"`); guard on the diff at `<hpPath>.value`, the
container and its `max`; compute `value/max * 100` (no reversed-polarity
mode in this revision); then fan out over the active tokens. -/
def updateActorHookDesc (localUserId : String) (hpPath : String) (actor : Actor)
    (changes : Changes) (tokens : List TokenDoc) (userId : String) : List (Nat × String) :=
  if localUserId ≠ userId then []
  else
    match changes (hpPath ++ ".value") with
    | none => []
    | some _ =>
      match actor.resolveAttr hpPath with
      | none => []
      | some hpData =>
        match hpData.max with
        | none => []
        | some m =>
          if m = 0 then []
          else
            let hpPercent := hpData.value / m * 100
            tokens.enum.filterMap fun it =>
              (processTokenDesc hpPercent it.2).map fun img => (it.1, img)

/-- A concrete actor whose `system.resources.hitPoints` container is
`{value: 10, max: 100}`. -/
def actorHp10 : Actor :=
  ⟨fun p => if p = "system.resources.hitPoints" then some ⟨10, some 100, false⟩ else none⟩

/-- A concrete actor whose container is `{value: 80, max: 100, isReversed: true}`. -/
def actorReversed : Actor :=
  ⟨fun p => if p = "system.resources.hitPoints" then some ⟨80, some 100, true⟩ else none⟩

/-- A concrete actor whose container is `{value: 80, max: 100}` (not reversed). -/
def actorPlain80 : Actor :=
  ⟨fun p => if p = "system.resources.hitPoints" then some ⟨80, some 100, false⟩ else none⟩

/-- A concrete actor whose container is `{value: 5, max: 0}`. -/
def actorMaxZero : Actor :=
  ⟨fun p => if p = "system.resources.hitPoints" then some ⟨5, some 0, false⟩ else none⟩

/-- A concrete diff payload recording a change of
`system.resources.hitPoints.value` to `10`. -/
def changesHp10 : Changes :=
  fun p => if p = "system.resources.hitPoints.value" then some 10 else none

/-- A concrete diff payload recording a change of
`system.resources.hitPoints.value` to `80`. -/
def changesHp80 : Changes :=
  fun p => if p = "system.resources.hitPoints.value" then some 80 else none

/-- A concrete diff payload containing no value at any path. -/
def changesEmpty : Changes := fun _ => none

/-- A concrete token with thresholds but no `attribute` flag. -/
def tokenNoAttr : TokenDoc := ⟨none, some [⟨25, "a"⟩, ⟨100, "b"⟩], some "tok.png"⟩

/-- A concrete token tracking the default attribute with a three-entry
threshold list. -/
def tokenThree : TokenDoc :=
  ⟨some DEFAULT_ATTRIBUTE, some [⟨25, "low"⟩, ⟨75, "mid"⟩, ⟨100, "high"⟩], some "tok.png"⟩

/-! Helper lemmas about the scan loop, the stable sorts, and `firstMax`. -/

theorem scanFirst_eq_find? (p : ℚ) (l : List Threshold) :
    scanFirst p l = (l.find? fun e => decide (p ≤ e.threshold)).map Threshold.img := by
  induction l with
  | nil => rfl
  | cons e t ih =>
    by_cases h : p ≤ e.threshold
    · simp [scanFirst, h]
    · simp [scanFirst, h, ih]

theorem scanFirst_eq_none (p : ℚ) {l : List Threshold}
    (h : ∀ e ∈ l, ¬ p ≤ e.threshold) : scanFirst p l = none := by
  induction l with
  | nil => rfl
  | cons e t ih =>
    have he := h e (List.mem_cons_self e t)
    simp only [scanFirst, if_neg he]
    exact ih fun x hx => h x (List.mem_cons_of_mem _ hx)

theorem scanFirst_mem (p : ℚ) {l : List Threshold} {img : String}
    (h : scanFirst p l = some img) : ∃ e ∈ l, e.img = img := by
  induction l with
  | nil => exact Option.noConfusion h
  | cons e t ih =>
    simp only [scanFirst] at h
    by_cases hp : p ≤ e.threshold
    · rw [if_pos hp] at h
      exact ⟨e, List.mem_cons_self e t, Option.some.inj h⟩
    · rw [if_neg hp] at h
      obtain ⟨x, hx, hximg⟩ := ih h
      exact ⟨x, List.mem_cons_of_mem _ hx, hximg⟩

theorem head?_orderedInsert_cons_thGE (a b : Threshold) (t : List Threshold) :
    (List.orderedInsert thGE a (b :: t)).head? =
      some (if b.threshold ≤ a.threshold then a else b) := by
  by_cases h : thGE a b
  · have h' : b.threshold ≤ a.threshold := h
    simp only [List.orderedInsert, if_pos h, if_pos h', List.head?_cons]
  · have h' : ¬ b.threshold ≤ a.threshold := h
    simp only [List.orderedInsert, if_neg h, if_neg h', List.head?_cons]

theorem head?_insertionSort_thGE (l : List Threshold) :
    (List.insertionSort thGE l).head? = firstMax l := by
  induction l with
  | nil => rfl
  | cons x xs ih =>
    simp only [List.insertionSort]
    cases hs : List.insertionSort thGE xs with
    | nil =>
      have hxs : xs = [] := by
        have hp := List.perm_insertionSort thGE xs
        rw [hs] at hp
        exact hp.symm.eq_nil
      subst hxs
      rfl
    | cons b t =>
      rw [hs] at ih
      simp only [List.head?_cons] at ih
      rw [head?_orderedInsert_cons_thGE]
      simp only [firstMax]
      rw [← ih]
      by_cases h : b.threshold ≤ x.threshold
      · simp [h, not_lt.mpr h]
      · simp [h, lt_of_not_le h]

theorem firstMax_eq_none {l : List Threshold} (h : firstMax l = none) : l = [] := by
  cases l with
  | nil => rfl
  | cons x xs =>
    simp only [firstMax] at h
    cases hm : firstMax xs with
    | none => rw [hm] at h; exact Option.noConfusion h
    | some m => rw [hm] at h; exact Option.noConfusion h

theorem firstMax_isSome_of_ne_nil {l : List Threshold} (h : l ≠ []) :
    ∃ e, firstMax l = some e := by
  cases hm : firstMax l with
  | none => exact absurd (firstMax_eq_none hm) h
  | some e => exact ⟨e, rfl⟩

theorem firstMax_decomp : ∀ {l : List Threshold} {e : Threshold}, firstMax l = some e →
    ∃ pre suf, l = pre ++ e :: suf ∧ (∀ y ∈ pre, y.threshold < e.threshold) ∧
      ∀ y ∈ l, y.threshold ≤ e.threshold := by
  intro l
  induction l with
  | nil => intro e h; exact Option.noConfusion h
  | cons x xs ih =>
    intro e h
    simp only [firstMax] at h
    cases hm : firstMax xs with
    | none =>
      rw [hm] at h
      have hx : x = e := Option.some.inj h
      have hxs : xs = [] := firstMax_eq_none hm
      subst hx
      subst hxs
      exact ⟨[], [], rfl, by simp, by simp⟩
    | some m =>
      rw [hm] at h
      have h2 : some (if x.threshold < m.threshold then m else x) = some e := h
      obtain ⟨pre, suf, hl, hpre, hall⟩ := ih hm
      by_cases hlt : x.threshold < m.threshold
      · rw [if_pos hlt] at h2
        have hme : m = e := Option.some.inj h2
        subst hme
        refine ⟨x :: pre, suf, by simp [hl], ?_, ?_⟩
        · intro y hy
          rcases List.mem_cons.mp hy with h1 | h2
          · subst h1; exact hlt
          · exact hpre y h2
        · intro y hy
          rcases List.mem_cons.mp hy with h1 | h2
          · subst h1; exact le_of_lt hlt
          · exact hall y h2
      · rw [if_neg hlt] at h2
        have hxe : x = e := Option.some.inj h2
        subst hxe
        refine ⟨[], xs, rfl, by simp, ?_⟩
        intro y hy
        rcases List.mem_cons.mp hy with h1 | h2
        · subst h1; exact le_refl _
        · exact le_trans (hall y h2) (not_lt.mp hlt)

theorem resolveImageDesc_eq_firstMax (p : ℚ) (l : List Threshold) :
    resolveImageDesc p l = (firstMax l).map Threshold.img := by
  by_cases hl : l.length = 0
  · have hnil : l = [] := List.length_eq_zero.mp hl
    subst hnil
    rfl
  · unfold resolveImageDesc
    rw [if_neg hl]
    cases hs : List.insertionSort thGE l with
    | nil =>
      exfalso
      have hlen := List.length_insertionSort thGE l
      rw [hs] at hlen
      exact hl hlen.symm
    | cons b t =>
      have hhead : some b = firstMax l := by
        rw [← head?_insertionSort_thGE, hs]
        rfl
      rw [← hhead]
      by_cases hp : p ≤ b.threshold
      · simp [scanFirst, hp]
      · have hsorted : (b :: t).Pairwise thGE := by
          have hsort := List.sorted_insertionSort thGE l
          rw [hs] at hsort
          exact hsort
        have hnone : scanFirst p t = none := by
          apply scanFirst_eq_none
          intro e he hpe
          have hbe : thGE b e := (List.pairwise_cons.mp hsorted).1 e he
          exact hp (le_trans hpe hbe)
        simp [scanFirst, hp, hnone]

theorem pairwise_lt_of_sorted_thLE {l : List Threshold}
    (hs : l.Pairwise thLE) (hn : (l.map Threshold.threshold).Nodup) :
    l.Pairwise fun a b => a.threshold < b.threshold := by
  have hne : l.Pairwise fun a b => a.threshold ≠ b.threshold := List.pairwise_map.mp hn
  exact (hs.and hne).imp fun h => lt_of_le_of_ne h.1 h.2

theorem pairwise_lt_of_sorted_thGE {l : List Threshold}
    (hs : l.Pairwise thGE) (hn : (l.map Threshold.threshold).Nodup) :
    l.Pairwise fun a b => b.threshold < a.threshold := by
  have hne : l.Pairwise fun a b => a.threshold ≠ b.threshold := List.pairwise_map.mp hn
  exact (hs.and hne).imp fun h => lt_of_le_of_ne h.1 h.2.symm

theorem insertionSort_eq_of_perm_thLE {l₁ l₂ : List Threshold}
    (hp : List.Perm l₁ l₂) (hn : (l₁.map Threshold.threshold).Nodup) :
    List.insertionSort thLE l₁ = List.insertionSort thLE l₂ := by
  haveI : IsAntisymm Threshold (fun a b => a.threshold < b.threshold) :=
    ⟨fun a b h₁ h₂ => absurd (h₁.trans h₂) (lt_irrefl _)⟩
  have hperm : List.Perm (List.insertionSort thLE l₁) (List.insertionSort thLE l₂) :=
    (List.perm_insertionSort thLE l₁).trans (hp.trans (List.perm_insertionSort thLE l₂).symm)
  have hn₁ : ((List.insertionSort thLE l₁).map Threshold.threshold).Nodup :=
    ((List.perm_insertionSort thLE l₁).map Threshold.threshold).nodup_iff.mpr hn
  have hn₂ : ((List.insertionSort thLE l₂).map Threshold.threshold).Nodup :=
    (hperm.map Threshold.threshold).nodup_iff.mp hn₁
  exact List.eq_of_perm_of_sorted hperm
    (pairwise_lt_of_sorted_thLE (List.sorted_insertionSort thLE l₁) hn₁)
    (pairwise_lt_of_sorted_thLE (List.sorted_insertionSort thLE l₂) hn₂)

theorem insertionSort_eq_of_perm_thGE {l₁ l₂ : List Threshold}
    (hp : List.Perm l₁ l₂) (hn : (l₁.map Threshold.threshold).Nodup) :
    List.insertionSort thGE l₁ = List.insertionSort thGE l₂ := by
  haveI : IsAntisymm Threshold (fun a b => b.threshold < a.threshold) :=
    ⟨fun a b h₁ h₂ => absurd (h₂.trans h₁) (lt_irrefl _)⟩
  have hperm : List.Perm (List.insertionSort thGE l₁) (List.insertionSort thGE l₂) :=
    (List.perm_insertionSort thGE l₁).trans (hp.trans (List.perm_insertionSort thGE l₂).symm)
  have hn₁ : ((List.insertionSort thGE l₁).map Threshold.threshold).Nodup :=
    ((List.perm_insertionSort thGE l₁).map Threshold.threshold).nodup_iff.mpr hn
  have hn₂ : ((List.insertionSort thGE l₂).map Threshold.threshold).Nodup :=
    (hperm.map Threshold.threshold).nodup_iff.mp hn₁
  exact List.eq_of_perm_of_sorted hperm
    (pairwise_lt_of_sorted_thGE (List.sorted_insertionSort thGE l₁) hn₁)
    (pairwise_lt_of_sorted_thGE (List.sorted_insertionSort thGE l₂) hn₂)

theorem resolveImage_perm {p : ℚ} {l₁ l₂ : List Threshold}
    (hp : List.Perm l₁ l₂) (hn : (l₁.map Threshold.threshold).Nodup) :
    resolveImage p l₁ = resolveImage p l₂ := by
  unfold resolveImage
  rw [insertionSort_eq_of_perm_thLE hp hn, hp.length_eq]

theorem resolveImageDesc_perm {p : ℚ} {l₁ l₂ : List Threshold}
    (hp : List.Perm l₁ l₂) (hn : (l₁.map Threshold.threshold).Nodup) :
    resolveImageDesc p l₁ = resolveImageDesc p l₂ := by
  unfold resolveImageDesc
  rw [insertionSort_eq_of_perm_thGE hp hn, hp.length_eq]

theorem resolveImage_mem {p : ℚ} {l : List Threshold} {img : String}
    (h : resolveImage p l = some img) : ∃ e ∈ l, e.img = img := by
  unfold resolveImage at h
  by_cases hl : l.length = 0
  · rw [if_pos hl] at h
    exact Option.noConfusion h
  · rw [if_neg hl] at h
    obtain ⟨e, he, himg⟩ := scanFirst_mem p h
    exact ⟨e, (List.perm_insertionSort thLE l).mem_iff.mp he, himg⟩

theorem resolveImageDesc_mem {p : ℚ} {l : List Threshold} {img : String}
    (h : resolveImageDesc p l = some img) : ∃ e ∈ l, e.img = img := by
  rw [resolveImageDesc_eq_firstMax] at h
  cases hm : firstMax l with
  | none => rw [hm] at h; exact Option.noConfusion h
  | some e =>
    rw [hm] at h
    obtain ⟨pre, suf, hl, _, _⟩ := firstMax_decomp hm
    refine ⟨e, ?_, Option.some.inj h⟩
    rw [hl]
    exact List.mem_append_right _ (List.mem_cons_self e suf)

/-! Claim theorems about the threshold resolver. -/

theorem find?_ge_eq_find?_le (p : ℚ) (l : List Threshold) :
    (l.find? fun e => decide (e.threshold ≥ p)) = l.find? fun e => decide (p ≤ e.threshold) := by
  have hpred : (fun e : Threshold => decide (e.threshold ≥ p)) =
      fun e => decide (p ≤ e.threshold) := by
    funext e
    rw [decide_eq_decide]
  rw [hpred]

/-- C1: the ascending-variant `resolveImage` sorts the list ascending by
threshold and returns the `img` of the first entry whose
`threshold >= percent`; if no entry qualifies or the list is empty it
returns `null`; in particular, on
`[{threshold:25,img:"a"},{threshold:75,img:"b"},{threshold:100,img:"c"}]`
it returns `"c"` at percent `100` and `"a"` at percent `10`. -/
theorem claim_C1 (p : ℚ) (ts : List Threshold) :
    resolveImage p ts = resolveImageSpecAsc p ts ∧
    resolveImage p [] = none ∧
    resolveImage 100 [⟨25, "a"⟩, ⟨75, "b"⟩, ⟨100, "c"⟩] = some "c" ∧
    resolveImage 10 [⟨25, "a"⟩, ⟨75, "b"⟩, ⟨100, "c"⟩] = some "a" := by
  refine ⟨?_, rfl, by decide, by decide⟩
  unfold resolveImage resolveImageSpecAsc
  by_cases hl : ts.length = 0
  · rw [if_pos hl]
    have hnil : ts = [] := List.length_eq_zero.mp hl
    subst hnil
    rfl
  · rw [if_neg hl, scanFirst_eq_find?, find?_ge_eq_find?_le]

/-- C3: the descending-variant `resolveImage` sorts the list descending,
returns the `img` of the first entry whose `threshold >= percent`, and
when no entry qualifies falls back to the image of the highest threshold
rather than returning `null` (so the result is never `null` on a
non-empty list). -/
theorem claim_C3 (p : ℚ) (ts : List Threshold) (h : ts ≠ []) :
    resolveImageDesc p ts = resolveImageSpecDesc p ts ∧
    ∃ img, resolveImageDesc p ts = some img := by
  constructor
  · unfold resolveImageDesc resolveImageSpecDesc
    have hl : ¬ ts.length = 0 := fun hc => h (List.length_eq_zero.mp hc)
    rw [if_neg hl, scanFirst_eq_find?, find?_ge_eq_find?_le]
    cases hfind : (List.insertionSort thGE ts).find? fun e => decide (p ≤ e.threshold) with
    | none => rfl
    | some e => rfl
  · rw [resolveImageDesc_eq_firstMax]
    obtain ⟨e, he⟩ := firstMax_isSome_of_ne_nil h
    exact ⟨e.img, by rw [he]; rfl⟩

theorem claim_C3_witness :
    ([⟨25, "a"⟩, ⟨75, "b"⟩] : List Threshold) ≠ [] ∧
    (resolveImageDesc 90 [⟨25, "a"⟩, ⟨75, "b"⟩] = resolveImageSpecDesc 90 [⟨25, "a"⟩, ⟨75, "b"⟩] ∧
      ∃ img, resolveImageDesc 90 [⟨25, "a"⟩, ⟨75, "b"⟩] = some img) :=
  ⟨by decide, claim_C3 90 [⟨25, "a"⟩, ⟨75, "b"⟩] (by decide)⟩

/-- C4 counterexample: `resolveImage` (both variants) is not
order-insensitive on lists containing duplicate threshold values: the
two permutations of `[{threshold:50,img:"a"}, {threshold:50,img:"b"}]`
give different results at percent `40`, because the stable sort keeps
tied entries in input order. -/
theorem claim_C4_counterexample :
    List.Perm [(⟨50, "a"⟩ : Threshold), ⟨50, "b"⟩] [⟨50, "b"⟩, ⟨50, "a"⟩] ∧
    resolveImage 40 [⟨50, "a"⟩, ⟨50, "b"⟩] = some "a" ∧
    resolveImage 40 [⟨50, "b"⟩, ⟨50, "a"⟩] = some "b" ∧
    resolveImageDesc 40 [⟨50, "a"⟩, ⟨50, "b"⟩] = some "a" ∧
    resolveImageDesc 40 [⟨50, "b"⟩, ⟨50, "a"⟩] = some "b" :=
  ⟨List.Perm.swap (⟨50, "b"⟩ : Threshold) ⟨50, "a"⟩ [], by decide, by decide, by decide, by decide⟩

/-- C4 (amended): for every percent and every pair of lists that are
permutations of each other whose threshold values are pairwise distinct,
both variants of `resolveImage` agree on the two lists — the sort
normalizes the input order whenever there are no duplicate thresholds. -/
theorem claim_C4_amended (p : ℚ) (l₁ l₂ : List Threshold) (hp : List.Perm l₁ l₂)
    (hn : (l₁.map Threshold.threshold).Nodup) :
    resolveImage p l₁ = resolveImage p l₂ ∧ resolveImageDesc p l₁ = resolveImageDesc p l₂ :=
  ⟨resolveImage_perm hp hn, resolveImageDesc_perm hp hn⟩

theorem claim_C4_amended_witness :
    List.Perm [(⟨25, "a"⟩ : Threshold), ⟨75, "b"⟩] [⟨75, "b"⟩, ⟨25, "a"⟩] ∧
    (([⟨25, "a"⟩, ⟨75, "b"⟩] : List Threshold).map Threshold.threshold).Nodup ∧
    (resolveImage 40 [⟨25, "a"⟩, ⟨75, "b"⟩] = resolveImage 40 [⟨75, "b"⟩, ⟨25, "a"⟩] ∧
      resolveImageDesc 40 [⟨25, "a"⟩, ⟨75, "b"⟩] = resolveImageDesc 40 [⟨75, "b"⟩, ⟨25, "a"⟩]) :=
  ⟨List.Perm.swap (⟨75, "b"⟩ : Threshold) ⟨25, "a"⟩ [], by decide,
    claim_C4_amended 40 [⟨25, "a"⟩, ⟨75, "b"⟩] [⟨75, "b"⟩, ⟨25, "a"⟩]
      (List.Perm.swap (⟨75, "b"⟩ : Threshold) ⟨25, "a"⟩ []) (by decide)⟩

/-- C10: the descending-variant `resolveImage` is constant in the
percentage: on every non-empty list it returns the `img` of the first
entry (in input order) attaining the maximal threshold value — the
descending scan's first comparison is against the largest threshold and
the fallback returns that same entry's `img` — so the result never
depends on the percent. -/
theorem claim_C10 (p q : ℚ) (ts : List Threshold) (h : ts ≠ []) :
    resolveImageDesc p ts = resolveImageDesc q ts ∧
    ∃ e pre suf, ts = pre ++ e :: suf ∧ resolveImageDesc p ts = some e.img ∧
      (∀ y ∈ pre, y.threshold < e.threshold) ∧ ∀ y ∈ ts, y.threshold ≤ e.threshold := by
  constructor
  · rw [resolveImageDesc_eq_firstMax, resolveImageDesc_eq_firstMax]
  · obtain ⟨e, he⟩ := firstMax_isSome_of_ne_nil h
    obtain ⟨pre, suf, hdec, hpre, hall⟩ := firstMax_decomp he
    exact ⟨e, pre, suf, hdec, by rw [resolveImageDesc_eq_firstMax, he]; rfl, hpre, hall⟩

theorem claim_C10_witness :
    ([⟨50, "half"⟩, ⟨100, "full"⟩] : List Threshold) ≠ [] ∧
    (resolveImageDesc 10 [⟨50, "half"⟩, ⟨100, "full"⟩] =
        resolveImageDesc 90 [⟨50, "half"⟩, ⟨100, "full"⟩] ∧
      ∃ e pre suf, ([⟨50, "half"⟩, ⟨100, "full"⟩] : List Threshold) = pre ++ e :: suf ∧
        resolveImageDesc 10 [⟨50, "half"⟩, ⟨100, "full"⟩] = some e.img ∧
        (∀ y ∈ pre, y.threshold < e.threshold) ∧
        ∀ y ∈ ([⟨50, "half"⟩, ⟨100, "full"⟩] : List Threshold), y.threshold ≤ e.threshold) :=
  ⟨by decide, claim_C10 10 90 [⟨50, "half"⟩, ⟨100, "full"⟩] (by decide)⟩

/-! Claim theorems about the change reactor. -/

theorem processToken_eq (actor : Actor) (changes : Changes) (tokenDoc : TokenDoc)
    (attrPath : String) (thresholds : List Threshold) (v : ℚ) (attrData : AttrData) (m : ℚ)
    (hflag : tokenDoc.attributeFlag = some attrPath) (hemp : attrPath ≠ "")
    (hth : tokenDoc.thresholds = some thresholds) (hlen : thresholds.length ≠ 0)
    (hch : changes ("system." ++ attrPath ++ ".value") = some v)
    (hattr : actor.resolveAttr ("system." ++ attrPath) = some attrData)
    (hmax : attrData.max = some m) (hm : m ≠ 0) :
    processToken actor changes tokenDoc =
      match resolveImage (hpPercentOf attrData m) thresholds with
      | none => none
      | some newImg =>
        if newImg = "" then none
        else if tokenDoc.textureSrc ≠ some newImg then some newImg else none := by
  simp only [processToken, hflag, hth, hch, hattr, hmax]
  rw [if_neg hemp, if_neg hlen, if_neg hm]

/-- C8: an update event whose initiating-client id differs from the
local client's user id produces zero writes from either revision of the
`updateActor` hook. -/
theorem claim_C8 (localUserId hpPath : String) (actor : Actor) (changes : Changes)
    (tokens : List TokenDoc) (userId : String) (h : localUserId ≠ userId) :
    updateActorHookAsc localUserId actor changes tokens userId = [] ∧
    updateActorHookDesc localUserId hpPath actor changes tokens userId = [] := by
  constructor
  · unfold updateActorHookAsc
    rw [if_pos h]
  · unfold updateActorHookDesc
    rw [if_pos h]

theorem claim_C8_witness :
    ("gm-user" : String) ≠ "other-user" ∧
    (updateActorHookAsc "gm-user" actorHp10 changesHp10 [tokenThree] "other-user" = [] ∧
      updateActorHookDesc "gm-user" "system.attributes.hp" actorHp10 changesHp10 [tokenThree]
        "other-user" = []) :=
  ⟨by decide,
    claim_C8 "gm-user" "system.attributes.hp" actorHp10 changesHp10 [tokenThree] "other-user"
      (by decide)⟩

/-- C9: when the change-diff payload contains no value at the resolved
path's `.value` key, the reactor issues no write: the ascending-variant
per-token body yields no write for a token whose `attribute` flag names
that path, and the descending-variant hook yields zero writes for the
whole event. -/
theorem claim_C9 :
    (∀ (actor : Actor) (changes : Changes) (tokenDoc : TokenDoc) (attrPath : String),
      tokenDoc.attributeFlag = some attrPath →
      changes ("system." ++ attrPath ++ ".value") = none →
      processToken actor changes tokenDoc = none) ∧
    ∀ (localUserId hpPath : String) (actor : Actor) (changes : Changes)
      (tokens : List TokenDoc) (userId : String),
      changes (hpPath ++ ".value") = none →
      updateActorHookDesc localUserId hpPath actor changes tokens userId = [] := by
  constructor
  · intro actor changes tokenDoc attrPath hflag hch
    by_cases hemp : attrPath = ""
    · simp [processToken, hflag, hemp]
    · cases hth : tokenDoc.thresholds with
      | none => simp [processToken, hflag, hemp, hth]
      | some thresholds =>
        by_cases hlen : thresholds.length = 0
        · simp [processToken, hflag, hemp, hth, hlen]
        · simp [processToken, hflag, hemp, hth, hlen, hch]
  · intro localUserId hpPath actor changes tokens userId hch
    by_cases huser : localUserId ≠ userId
    · simp [updateActorHookDesc, huser]
    · simp [updateActorHookDesc, huser, hch]

theorem claim_C9_witness :
    tokenThree.attributeFlag = some DEFAULT_ATTRIBUTE ∧
    changesEmpty ("system." ++ DEFAULT_ATTRIBUTE ++ ".value") = none ∧
    changesEmpty ("system.attributes.hp" ++ ".value") = none ∧
    processToken actorHp10 changesEmpty tokenThree = none ∧
    updateActorHookDesc "u1" "system.attributes.hp" actorHp10 changesEmpty [tokenThree] "u1" = [] :=
  ⟨rfl, rfl, rfl,
    claim_C9.1 actorHp10 changesEmpty tokenThree DEFAULT_ATTRIBUTE rfl rfl,
    claim_C9.2 "u1" "system.attributes.hp" actorHp10 changesEmpty [tokenThree] "u1" rfl⟩

/-- C7: when the attribute container at the resolved path is absent, or
its `max` is null or zero, no percentage is computed and no write is
issued: the ascending-variant per-token body yields no write, and the
descending-variant hook yields zero writes for the whole event. -/
theorem claim_C7 :
    (∀ (actor : Actor) (changes : Changes) (tokenDoc : TokenDoc) (attrPath : String),
      tokenDoc.attributeFlag = some attrPath →
      (actor.resolveAttr ("system." ++ attrPath) = none ∨
        ∃ attrData, actor.resolveAttr ("system." ++ attrPath) = some attrData ∧
          (attrData.max = none ∨ attrData.max = some 0)) →
      processToken actor changes tokenDoc = none) ∧
    ∀ (localUserId hpPath : String) (actor : Actor) (changes : Changes)
      (tokens : List TokenDoc) (userId : String),
      (actor.resolveAttr hpPath = none ∨
        ∃ hpData, actor.resolveAttr hpPath = some hpData ∧
          (hpData.max = none ∨ hpData.max = some 0)) →
      updateActorHookDesc localUserId hpPath actor changes tokens userId = [] := by
  constructor
  · intro actor changes tokenDoc attrPath hflag hguard
    by_cases hemp : attrPath = ""
    · simp [processToken, hflag, hemp]
    · cases hth : tokenDoc.thresholds with
      | none => simp [processToken, hflag, hemp, hth]
      | some thresholds =>
        by_cases hlen : thresholds.length = 0
        · simp [processToken, hflag, hemp, hth, hlen]
        · cases hch : changes ("system." ++ attrPath ++ ".value") with
          | none => simp [processToken, hflag, hemp, hth, hlen, hch]
          | some v =>
            rcases hguard with hnone | ⟨attrData, hsome, hmax⟩
            · simp [processToken, hflag, hemp, hth, hlen, hch, hnone]
            · rcases hmax with h0 | h0
              · simp [processToken, hflag, hemp, hth, hlen, hch, hsome, h0]
              · simp [processToken, hflag, hemp, hth, hlen, hch, hsome, h0]
  · intro localUserId hpPath actor changes tokens userId hguard
    by_cases huser : localUserId ≠ userId
    · simp [updateActorHookDesc, huser]
    · cases hch : changes (hpPath ++ ".value") with
      | none => simp [updateActorHookDesc, huser, hch]
      | some v =>
        rcases hguard with hnone | ⟨hpData, hsome, hmax⟩
        · simp [updateActorHookDesc, huser, hch, hnone]
        · rcases hmax with h0 | h0
          · simp [updateActorHookDesc, huser, hch, hsome, h0]
          · simp [updateActorHookDesc, huser, hch, hsome, h0]

theorem claim_C7_witness :
    tokenThree.attributeFlag = some DEFAULT_ATTRIBUTE ∧
    actorMaxZero.resolveAttr ("system." ++ DEFAULT_ATTRIBUTE) = some ⟨5, some 0, false⟩ ∧
    actorMaxZero.resolveAttr "system.attributes.hp" = none ∧
    processToken actorMaxZero changesHp80 tokenThree = none ∧
    updateActorHookDesc "u1" "system.attributes.hp" actorMaxZero changesHp80 [tokenThree]
      "u1" = [] :=
  ⟨rfl, by decide, by decide,
    claim_C7.1 actorMaxZero changesHp80 tokenThree DEFAULT_ATTRIBUTE rfl
      (Or.inr ⟨⟨5, some 0, false⟩, by decide, Or.inr rfl⟩),
    claim_C7.2 "u1" "system.attributes.hp" actorMaxZero changesHp80 [tokenThree] "u1"
      (Or.inl (by decide))⟩

/-- C5 counterexample: the ascending-variant reactor does not fall back
to the global default path. A token with no `attribute` flag is skipped
outright (no write), even though processing it with the default path
`"resources.hitPoints"` would have issued the write `"a"`; the whole
event yields zero writes for that token. -/
theorem claim_C5_counterexample :
    processToken actorHp10 changesHp10 tokenNoAttr = none ∧
    processToken actorHp10 changesHp10
      { tokenNoAttr with attributeFlag := some DEFAULT_ATTRIBUTE } = some "a" ∧
    updateActorHookAsc "u1" actorHp10 changesHp10 [tokenNoAttr] "u1" = [] := by
  have h10 : hpPercentOf ⟨10, some 100, false⟩ 100 = 10 := by norm_num [hpPercentOf]
  refine ⟨rfl, ?_, by decide⟩
  rw [processToken_eq actorHp10 changesHp10 _ DEFAULT_ATTRIBUTE [⟨25, "a"⟩, ⟨100, "b"⟩] 10
    ⟨10, some 100, false⟩ 100 rfl (by decide) rfl (by decide) (by decide) (by decide) rfl
    (by decide), h10]
  decide

/-- C5 (amended): the attribute path is not "per-token flag or else
global default". In the ascending-variant reactor the path comes solely
from the per-token `attribute` flag — a token without the flag is
skipped, not processed with the global default — while in the
descending-variant reactor the path comes solely from the global
`hpPath` setting and the per-token flag is never consulted. -/
theorem claim_C5_amended :
    (∀ (actor : Actor) (changes : Changes) (tokenDoc : TokenDoc),
      tokenDoc.attributeFlag = none → processToken actor changes tokenDoc = none) ∧
    ∀ (hpPercent : ℚ) (tokenDoc : TokenDoc) (flag : Option String),
      processTokenDesc hpPercent { tokenDoc with attributeFlag := flag } =
        processTokenDesc hpPercent tokenDoc := by
  constructor
  · intro actor changes tokenDoc h
    simp [processToken, h]
  · intro hpPercent tokenDoc flag
    rfl

theorem claim_C5_amended_witness :
    tokenNoAttr.attributeFlag = none ∧
    processToken actorHp10 changesHp10 tokenNoAttr = none ∧
    processTokenDesc 50 { tokenNoAttr with attributeFlag := some "resources.mana" } =
      processTokenDesc 50 tokenNoAttr :=
  ⟨rfl, claim_C5_amended.1 actorHp10 changesHp10 tokenNoAttr rfl,
    claim_C5_amended.2 50 tokenNoAttr (some "resources.mana")⟩

/-- C6: when the tracked attribute data carries the reversed-polarity
flag, the reactor computes `percent = (1 - value/max) * 100` instead of
`value/max * 100`; in particular `value = 80, max = 100, reversed = true`
yields `percent = 20`, so the reversed actor resolves the low-percentage
image where the plain actor resolves the high one. -/
theorem claim_C6 :
    (∀ (v m : ℚ) (mx : Option ℚ), hpPercentOf ⟨v, mx, true⟩ m = (1 - v / m) * 100) ∧
    (∀ (v m : ℚ) (mx : Option ℚ), hpPercentOf ⟨v, mx, false⟩ m = v / m * 100) ∧
    hpPercentOf ⟨80, some 100, true⟩ 100 = 20 ∧
    processToken actorReversed changesHp80 tokenThree = some "low" ∧
    processToken actorPlain80 changesHp80 tokenThree = some "high" := by
  have h20 : hpPercentOf ⟨80, some 100, true⟩ 100 = 20 := by norm_num [hpPercentOf]
  have h80 : hpPercentOf ⟨80, some 100, false⟩ 100 = 80 := by norm_num [hpPercentOf]
  refine ⟨fun _ _ _ => rfl, fun _ _ _ => rfl, h20, ?_, ?_⟩
  · rw [processToken_eq actorReversed changesHp80 _ DEFAULT_ATTRIBUTE
      [⟨25, "low"⟩, ⟨75, "mid"⟩, ⟨100, "high"⟩] 80 ⟨80, some 100, true⟩ 100 rfl (by decide) rfl
      (by decide) (by decide) (by decide) rfl (by decide), h20]
    decide
  · rw [processToken_eq actorPlain80 changesHp80 _ DEFAULT_ATTRIBUTE
      [⟨25, "low"⟩, ⟨75, "mid"⟩, ⟨100, "high"⟩] 80 ⟨80, some 100, false⟩ 100 rfl (by decide) rfl
      (by decide) (by decide) (by decide) rfl (by decide), h80]
    decide

/-- C2: for every token processed by the reactor (all step-1-to-3 guards
passed, thresholds well-formed per the data model: images are non-empty
paths), a write to the token's image field is issued if and only if the
resolved image is non-null and differs from the token's current image;
in particular a null resolution or an already-matching image issues no
write. Stated for the per-token bodies of both revisions. -/
theorem claim_C2 :
    (∀ (actor : Actor) (changes : Changes) (tokenDoc : TokenDoc) (attrPath : String)
      (thresholds : List Threshold) (v : ℚ) (attrData : AttrData) (m : ℚ),
      tokenDoc.attributeFlag = some attrPath → attrPath ≠ "" →
      tokenDoc.thresholds = some thresholds → thresholds.length ≠ 0 →
      changes ("system." ++ attrPath ++ ".value") = some v →
      actor.resolveAttr ("system." ++ attrPath) = some attrData →
      attrData.max = some m → m ≠ 0 →
      (∀ e ∈ thresholds, e.img ≠ "") →
      ∀ img, processToken actor changes tokenDoc = some img ↔
        (resolveImage (hpPercentOf attrData m) thresholds = some img ∧
          tokenDoc.textureSrc ≠ some img)) ∧
    ∀ (hpPercent : ℚ) (tokenDoc : TokenDoc) (thresholds : List Threshold),
      tokenDoc.thresholds = some thresholds → thresholds.length ≠ 0 →
      (∀ e ∈ thresholds, e.img ≠ "") →
      ∀ img, processTokenDesc hpPercent tokenDoc = some img ↔
        (resolveImageDesc hpPercent thresholds = some img ∧
          tokenDoc.textureSrc ≠ some img) := by
  constructor
  · intro actor changes tokenDoc attrPath thresholds v attrData m hflag hemp hth hlen hch
      hattr hmax hm himg img
    rw [processToken_eq actor changes tokenDoc attrPath thresholds v attrData m hflag hemp hth
      hlen hch hattr hmax hm]
    cases hres : resolveImage (hpPercentOf attrData m) thresholds with
    | none =>
      constructor
      · intro hw
        exact Option.noConfusion hw
      · rintro ⟨h1, h2⟩
        exact Option.noConfusion h1
    | some newImg =>
      show (if newImg = "" then none
          else if tokenDoc.textureSrc ≠ some newImg then some newImg else none) = some img ↔
        (some newImg = some img ∧ tokenDoc.textureSrc ≠ some img)
      have hne : newImg ≠ "" := by
        obtain ⟨e, he, heimg⟩ := resolveImage_mem hres
        rw [← heimg]
        exact himg e he
      rw [if_neg hne]
      by_cases htex : tokenDoc.textureSrc ≠ some newImg
      · rw [if_pos htex]
        constructor
        · intro hw
          have hni : newImg = img := Option.some.inj hw
          subst hni
          exact ⟨rfl, htex⟩
        · rintro ⟨h1, h2⟩
          exact h1
      · rw [if_neg htex]
        constructor
        · intro hw
          exact Option.noConfusion hw
        · rintro ⟨h1, h2⟩
          have hni : newImg = img := Option.some.inj h1
          subst hni
          exact absurd (not_not.mp htex) h2
  · intro hpPercent tokenDoc thresholds hth hlen himg img
    simp only [processTokenDesc, hth]
    rw [if_neg hlen]
    cases hres : resolveImageDesc hpPercent thresholds with
    | none =>
      constructor
      · intro hw
        exact Option.noConfusion hw
      · rintro ⟨h1, h2⟩
        exact Option.noConfusion h1
    | some newImg =>
      show (if newImg = "" then none
          else if tokenDoc.textureSrc ≠ some newImg then some newImg else none) = some img ↔
        (some newImg = some img ∧ tokenDoc.textureSrc ≠ some img)
      have hne : newImg ≠ "" := by
        obtain ⟨e, he, heimg⟩ := resolveImageDesc_mem hres
        rw [← heimg]
        exact himg e he
      rw [if_neg hne]
      by_cases htex : tokenDoc.textureSrc ≠ some newImg
      · rw [if_pos htex]
        constructor
        · intro hw
          have hni : newImg = img := Option.some.inj hw
          subst hni
          exact ⟨rfl, htex⟩
        · rintro ⟨h1, h2⟩
          exact h1
      · rw [if_neg htex]
        constructor
        · intro hw
          exact Option.noConfusion hw
        · rintro ⟨h1, h2⟩
          have hni : newImg = img := Option.some.inj h1
          subst hni
          exact absurd (not_not.mp htex) h2

theorem claim_C2_witness :
    tokenThree.attributeFlag = some DEFAULT_ATTRIBUTE ∧ DEFAULT_ATTRIBUTE ≠ "" ∧
    tokenThree.thresholds = some [⟨25, "low"⟩, ⟨75, "mid"⟩, ⟨100, "high"⟩] ∧
    ([⟨25, "low"⟩, ⟨75, "mid"⟩, ⟨100, "high"⟩] : List Threshold).length ≠ 0 ∧
    changesHp10 ("system." ++ DEFAULT_ATTRIBUTE ++ ".value") = some 10 ∧
    actorHp10.resolveAttr ("system." ++ DEFAULT_ATTRIBUTE) = some ⟨10, some 100, false⟩ ∧
    (some (100 : ℚ) = some 100 ∧ (100 : ℚ) ≠ 0) ∧
    (∀ e ∈ ([⟨25, "low"⟩, ⟨75, "mid"⟩, ⟨100, "high"⟩] : List Threshold), e.img ≠ "") ∧
    (processToken actorHp10 changesHp10 tokenThree = some "low" ↔
      (resolveImage (hpPercentOf ⟨10, some 100, false⟩ 100)
          [⟨25, "low"⟩, ⟨75, "mid"⟩, ⟨100, "high"⟩] = some "low" ∧
        tokenThree.textureSrc ≠ some "low")) ∧
    (processTokenDesc 10 tokenThree = some "high" ↔
      (resolveImageDesc 10 [⟨25, "low"⟩, ⟨75, "mid"⟩, ⟨100, "high"⟩] = some "high" ∧
        tokenThree.textureSrc ≠ some "high")) :=
  ⟨rfl, by decide, rfl, by decide, by decide, by decide, ⟨rfl, by decide⟩, by decide,
    claim_C2.1 actorHp10 changesHp10 tokenThree DEFAULT_ATTRIBUTE
      [⟨25, "low"⟩, ⟨75, "mid"⟩, ⟨100, "high"⟩] 10 ⟨10, some 100, false⟩ 100 rfl (by decide) rfl
      (by decide) (by decide) (by decide) rfl (by decide) (by decide) "low",
    claim_C2.2 10 tokenThree [⟨25, "low"⟩, ⟨75, "mid"⟩, ⟨100, "high"⟩] rfl (by decide)
      (by decide) "high"⟩

end DynamicTokens
